import Mathlib

/-! Shallow embedding of the `SocketService` class (socket service source
file), the connection/room/typing/presence core of the chat backend.

JavaScript `Map` objects are modelled as association lists in insertion
order (`Map.set` on an existing key keeps its position; `Map.delete`
removes the key), `Set` objects as lists in insertion order with
membership-guarded insertion.  Mutation of a value object fetched from a
map (`userSession.rooms.add(...)`, `activeRoom.participants.add(...)`) is
modelled by updating the entry in place.  `setTimeout` handles are natural
numbers drawn from a counter; the set of currently armed timers is carried
in the state so that cancellation (`clearTimeout`) can be observed.
Broadcasts (`socket.to(room).emit`, `socket.emit`) are collected as an
event list returned next to the new state.
-/

namespace ChatSocket

/-- One emitted socket.io event, with its target room (or socket, for
scoped errors), the sending socket id, and the payload fields the service
fills in. -/
inductive Event where
  | errorEvt (toSock : String) (code : String)
  | userJoinedRoom (room sender userId role : String)
  | userLeftRoom (room sender userId role : String)
  | userTyping (room sender userId : String)
  | userStoppedTyping (room sender userId : String)
  deriving DecidableEq, Repr

/-- An authenticated (or not yet authenticated) socket: `userId` is set by
`authenticateSocket` on success. -/
structure Socket where
  sid : String
  userId : Option String
  deriving DecidableEq, Repr

/-- One entry of `ActiveRoom.typingUsers`: the typing user and the pending
auto-expiry `setTimeout` handle. -/
structure TypingEntry where
  userId : String
  timer : Nat
  deriving DecidableEq, Repr

/-- Model of `ActiveRoom` from the socket types file: participant socket ids and
the typing map keyed by socket id. -/
structure ActiveRoom where
  participants : List String
  typingUsers : List (String × TypingEntry)
  deriving DecidableEq, Repr

/-- Model of `UserSession` from the socket types file (the fields the tracked
operations touch): the owning user and the set of joined room ids. -/
structure UserSession where
  userId : String
  rooms : List String
  deriving DecidableEq, Repr

/-- First-match lookup in an association list: JavaScript `Map.get`. -/
def lookupKey (l : List (String × α)) (k : String) : Option α :=
  match l with
  | [] => none
  | p :: rest => if p.1 = k then some p.2 else lookupKey rest k

/-- JavaScript `Map.set`: replace in place when the key is present,
append otherwise. -/
def setKey (l : List (String × α)) (k : String) (v : α) : List (String × α) :=
  if (lookupKey l k).isSome then
    l.map (fun p => if p.1 = k then (p.1, v) else p)
  else l ++ [(k, v)]

/-- In-place mutation of the value object stored under a key (the service
mutates `userSession.rooms` / `activeRoom.participants` directly). -/
def modifyKey (l : List (String × α)) (k : String) (f : α → α) : List (String × α) :=
  l.map (fun p => if p.1 = k then (p.1, f p.2) else p)

/-- JavaScript `Map.delete`. -/
def eraseKey (l : List (String × α)) (k : String) : List (String × α) :=
  l.filter (fun p => p.1 ≠ k)

/-- JavaScript `Set.add`: no-op when already present, append otherwise. -/
def addElem (l : List String) (x : String) : List String :=
  if x ∈ l then l else l ++ [x]

/-- JavaScript `Set.delete`. -/
def removeElem (l : List String) (x : String) : List String :=
  l.filter (fun y => y ≠ x)

/-- The in-memory state of the `SocketService`: the three tracking maps,
socket.io's registry of live sockets (`io.sockets.sockets`), and the armed
`setTimeout` handles, each tagged with the (socket, room) pair whose
`handleStopTyping` it would fire. -/
structure SState where
  activeRooms : List (String × ActiveRoom)
  userSessions : List (String × UserSession)
  userSocketMap : List (String × String)
  liveSockets : List String
  armedTimers : List (Nat × String × String)
  nextTimer : Nat
  deriving DecidableEq, Repr

/-- The state of a freshly constructed service: all maps empty. -/
def initState : SState :=
  { activeRooms := [], userSessions := [], userSocketMap := [],
    liveSockets := [], armedTimers := [], nextTimer := 0 }

/-- The in-memory effect of a successful `authenticateSocket`: record the
session (with an empty joined-room set), point the user's direct-send
route at this socket, and register the socket as live. -/
def connectSocket (sock : Socket) (uid : String) (s : SState) : SState :=
  { s with
    userSessions := setKey s.userSessions sock.sid { userId := uid, rooms := [] },
    userSocketMap := setKey s.userSocketMap uid sock.sid,
    liveSockets := addElem s.liveSockets sock.sid }

/-- Model of `handleJoinRoom`.  Here `auth uid roomId` is the durable
`UserRoom.findOne {userId, roomId, isActive}` lookup, returning the role
on success. -/
def handleJoinRoom (auth : String → String → Option String) (sock : Socket)
    (roomId : String) (s : SState) : SState × List Event :=
  match sock.userId with
  | none => (s, [])
  | some uid =>
    match auth uid roomId with
    | none => (s, [.errorEvt sock.sid "ROOM_ACCESS_DENIED"])
    | some role =>
      let s := { s with
        userSessions := modifyKey s.userSessions sock.sid
          (fun sess => { sess with rooms := addElem sess.rooms roomId }) }
      let s :=
        if (lookupKey s.activeRooms roomId).isSome then s
        else { s with activeRooms := setKey s.activeRooms roomId ⟨[], []⟩ }
      let s := { s with
        activeRooms := modifyKey s.activeRooms roomId
          (fun r => { r with participants := addElem r.participants sock.sid }) }
      (s, [.userJoinedRoom roomId sock.sid uid role])

/-- Model of `handleLeaveRoom`: drop the room from the session's joined set, drop
the socket from the room's participants and typing map (without touching
the typing entry's timer), evict the room when its participant set
empties, and broadcast `userLeftRoom` with the hard-coded role
`"member"`. -/
def handleLeaveRoom (sock : Socket) (roomId : String) (s : SState) :
    SState × List Event :=
  match sock.userId with
  | none => (s, [])
  | some uid =>
    let s := { s with
      userSessions := modifyKey s.userSessions sock.sid
        (fun sess => { sess with rooms := removeElem sess.rooms roomId }) }
    let s :=
      match lookupKey s.activeRooms roomId with
      | none => s
      | some room =>
        let room' : ActiveRoom :=
          { participants := removeElem room.participants sock.sid,
            typingUsers := eraseKey room.typingUsers sock.sid }
        if room'.participants = [] then
          { s with activeRooms := eraseKey s.activeRooms roomId }
        else
          { s with activeRooms := setKey s.activeRooms roomId room' }
    (s, [.userLeftRoom roomId sock.sid uid "member"])

/-- Model of `handleStartTyping`: no-op unless the room has an `ActiveRoom` entry
(the caller's own membership is not consulted); clears a pre-existing
entry's timeout, arms a fresh 10 s auto-stop timer, stores the entry and
broadcasts `userTyping`. -/
def handleStartTyping (sock : Socket) (roomId : String) (s : SState) :
    SState × List Event :=
  match sock.userId with
  | none => (s, [])
  | some uid =>
    match lookupKey s.activeRooms roomId with
    | none => (s, [])
    | some room =>
      let s :=
        match lookupKey room.typingUsers sock.sid with
        | some entry =>
            { s with armedTimers := s.armedTimers.filter (fun t => t.1 ≠ entry.timer) }
        | none => s
      let handle := s.nextTimer
      let s := { s with
        armedTimers := s.armedTimers ++ [(handle, sock.sid, roomId)],
        nextTimer := handle + 1 }
      let s := { s with
        activeRooms := modifyKey s.activeRooms roomId
          (fun r => { r with typingUsers := setKey r.typingUsers sock.sid ⟨uid, handle⟩ }) }
      (s, [.userTyping roomId sock.sid uid])

/-- Model of `handleStopTyping`: no-op when the room is not active or the socket
has no typing entry; otherwise cancel the entry's timer, remove the entry
and broadcast `userStoppedTyping`. -/
def handleStopTyping (sock : Socket) (roomId : String) (s : SState) :
    SState × List Event :=
  match sock.userId with
  | none => (s, [])
  | some uid =>
    match lookupKey s.activeRooms roomId with
    | none => (s, [])
    | some room =>
      match lookupKey room.typingUsers sock.sid with
      | none => (s, [])
      | some entry =>
        let s := { s with armedTimers := s.armedTimers.filter (fun t => t.1 ≠ entry.timer) }
        let s := { s with
          activeRooms := modifyKey s.activeRooms roomId
            (fun r => { r with typingUsers := eraseKey r.typingUsers sock.sid }) }
        (s, [.userStoppedTyping roomId sock.sid uid])

/-- The per-room body of `handleDisconnect`'s cleanup loop, line for line:
remove the participant, cancel and remove any typing entry (emitting
`userStoppedTyping`), emit `userLeftRoom`, evict the room if empty. -/
def disconnectRoomCleanup (sock : Socket) (uid : String) (roomId : String)
    (acc : SState × List Event) : SState × List Event :=
  let (s, evts) := acc
  match lookupKey s.activeRooms roomId with
  | none => (s, evts)
  | some room =>
    let room1 : ActiveRoom := { room with participants := removeElem room.participants sock.sid }
    let (s, evts) :=
      match lookupKey room.typingUsers sock.sid with
      | some entry =>
        let room2 : ActiveRoom := { room1 with typingUsers := eraseKey room1.typingUsers sock.sid }
        ({ s with
            armedTimers := s.armedTimers.filter (fun t => t.1 ≠ entry.timer),
            activeRooms := setKey s.activeRooms roomId room2 },
          evts ++ [Event.userStoppedTyping roomId sock.sid uid])
      | none =>
        ({ s with activeRooms := setKey s.activeRooms roomId room1 }, evts)
    let evts := evts ++ [Event.userLeftRoom roomId sock.sid uid "member"]
    match lookupKey s.activeRooms roomId with
    | some r =>
      if r.participants = [] then
        ({ s with activeRooms := eraseKey s.activeRooms roomId }, evts)
      else (s, evts)
    | none => (s, evts)

/-- Model of `handleDisconnect`.  socket.io deregisters the socket from
`io.sockets.sockets` in any case; for an authenticated socket the handler
deletes the session and the user's direct-send route, then reads
`this.userSessions.get(socket.id)` — the entry it just deleted — before
iterating its rooms, so the cleanup loop body is translated faithfully
but can never run. -/
def handleDisconnect (sock : Socket) (s : SState) : SState × List Event :=
  let s := { s with liveSockets := removeElem s.liveSockets sock.sid }
  match sock.userId with
  | none => (s, [])
  | some uid =>
    let s := { s with
      userSessions := eraseKey s.userSessions sock.sid,
      userSocketMap := eraseKey s.userSocketMap uid }
    match lookupKey s.userSessions sock.sid with
    | none => (s, [])
    | some sess =>
      sess.rooms.foldl (fun acc r => disconnectRoomCleanup sock uid r acc) (s, [])

/-- Model of `sendToUser`: look up the user's direct-send route and deliver only if
that socket is still in socket.io's live registry. -/
def sendToUser (s : SState) (uid : String) : Bool :=
  match lookupKey s.userSocketMap uid with
  | some sid => sid ∈ s.liveSockets
  | none => false

/-- Model of `getActiveUsersInRoom`: map each participant socket id through the
session map to its user id and keep the truthy ones (dropping both missing
sessions and the falsy empty string, as `filter((userId) => userId)`
does). -/
def getActiveUsersInRoom (s : SState) (roomId : String) : List String :=
  match lookupKey s.activeRooms roomId with
  | none => []
  | some room =>
    room.participants.filterMap (fun sid =>
      match lookupKey s.userSessions sid with
      | some sess => if sess.userId = "" then none else some sess.userId
      | none => none)

/-! ### Basic lemmas about the map and set operations -/

theorem lookupKey_mem {l : List (String × α)} {k : String} {v : α}
    (h : lookupKey l k = some v) : (k, v) ∈ l := by
  induction l with
  | nil => simp [lookupKey] at h
  | cons p rest ih =>
    by_cases hp : p.1 = k
    · simp only [lookupKey, if_pos hp] at h
      injection h with h2
      rw [← h2, ← hp]
      exact List.mem_cons_self p rest
    · simp only [lookupKey, if_neg hp] at h
      exact List.mem_cons_of_mem _ (ih h)

theorem lookupKey_eraseKey_self (l : List (String × α)) (k : String) :
    lookupKey (eraseKey l k) k = none := by
  induction l with
  | nil => rfl
  | cons p rest ih =>
    by_cases hp : p.1 = k
    · simpa [eraseKey, List.filter_cons, hp] using ih
    · simpa [eraseKey, List.filter_cons, hp, lookupKey] using ih

theorem eraseKey_eq_self {l : List (String × α)} {k : String}
    (h : ∀ p ∈ l, p.1 ≠ k) : eraseKey l k = l :=
  List.filter_eq_self.mpr (fun p hp => by simpa using h p hp)

theorem lookupKey_eq_none {l : List (String × α)} {k : String}
    (h : ∀ p ∈ l, p.1 ≠ k) : lookupKey l k = none := by
  induction l with
  | nil => rfl
  | cons p rest ih =>
    simp only [lookupKey, if_neg (h p (List.mem_cons_self p rest))]
    exact ih (fun q hq => h q (List.mem_cons_of_mem p hq))

theorem lookupKey_setKey_self (l : List (String × α)) (k : String) (v : α) :
    lookupKey (setKey l k v) k = some v := by
  unfold setKey
  by_cases hs : (lookupKey l k).isSome
  · rw [if_pos hs]
    induction l with
    | nil => simp [lookupKey] at hs
    | cons p rest ih =>
      by_cases hp : p.1 = k
      · simp [lookupKey, hp]
      · simp only [lookupKey, if_neg hp, List.map_cons, if_neg hp] at hs ⊢
        exact ih hs
  · rw [if_neg hs]
    have hnone : lookupKey l k = none := by
      cases h : lookupKey l k with
      | none => rfl
      | some v' => rw [h] at hs; simp at hs
    induction l with
    | nil => simp [lookupKey]
    | cons p rest ih =>
      by_cases hp : p.1 = k
      · simp [lookupKey, hp] at hnone
      · simp only [lookupKey, if_neg hp] at hnone
        simp only [List.cons_append, lookupKey, if_neg hp]
        exact ih (by simp [hnone]) hnone

theorem mem_setKey_cases {l : List (String × α)} {k : String} {v : α} {p : String × α}
    (h : p ∈ setKey l k v) : p ∈ l ∨ p = (k, v) := by
  unfold setKey at h
  by_cases hs : (lookupKey l k).isSome
  · rw [if_pos hs] at h
    rcases List.mem_map.mp h with ⟨q, hq, hpq⟩
    by_cases hk : q.1 = k
    · right; rw [← hpq, if_pos hk, hk]
    · left; rw [← hpq, if_neg hk]; exact hq
  · rw [if_neg hs] at h
    rcases List.mem_append.mp h with h | h
    · exact Or.inl h
    · right; simpa using h

theorem mem_modifyKey_cases {l : List (String × α)} {k : String} {f : α → α}
    {p : String × α} (h : p ∈ modifyKey l k f) :
    (p ∈ l ∧ p.1 ≠ k) ∨ ∃ q ∈ l, q.1 = k ∧ p = (k, f q.2) := by
  rcases List.mem_map.mp h with ⟨q, hq, hpq⟩
  by_cases hk : q.1 = k
  · right; exact ⟨q, hq, hk, by rw [← hpq, if_pos hk, hk]⟩
  · left
    constructor
    · rw [← hpq, if_neg hk]; exact hq
    · rw [← hpq, if_neg hk]; exact hk

theorem modifyKey_eq_self {l : List (String × α)} {k : String} {f : α → α}
    (h : ∀ p ∈ l, p.1 = k → f p.2 = p.2) : modifyKey l k f = l := by
  induction l with
  | nil => rfl
  | cons p rest ih =>
    simp only [modifyKey, List.map_cons]
    have hrest : (modifyKey rest k f) = rest :=
      ih (fun q hq => h q (List.mem_cons_of_mem p hq))
    by_cases hp : p.1 = k
    · rw [if_pos hp, h p (List.mem_cons_self p rest) hp]
      simpa [modifyKey] using hrest
    · rw [if_neg hp]
      simpa [modifyKey] using hrest

theorem setKey_eq_self {l : List (String × α)} {k : String} {v : α}
    (hs : (lookupKey l k).isSome) (h : ∀ p ∈ l, p.1 = k → p.2 = v) :
    setKey l k v = l := by
  unfold setKey
  rw [if_pos hs]
  have hcong : ∀ p ∈ l, (if p.1 = k then (p.1, v) else p) = id p := by
    intro p hp
    by_cases hk : p.1 = k
    · rw [if_pos hk, ← h p hp hk, id]
    · rw [if_neg hk, id]
  rw [List.map_congr_left hcong, List.map_id]

theorem lookupKey_modifyKey_self (l : List (String × α)) (k : String) (f : α → α) :
    lookupKey (modifyKey l k f) k = (lookupKey l k).map f := by
  induction l with
  | nil => rfl
  | cons p rest ih =>
    by_cases hp : p.1 = k
    · simp [modifyKey, lookupKey, hp]
    · simpa [modifyKey, lookupKey, hp] using ih

theorem lookupKey_modifyKey_ne (l : List (String × α)) {k k' : String} (f : α → α)
    (h : k' ≠ k) : lookupKey (modifyKey l k f) k' = lookupKey l k' := by
  induction l with
  | nil => rfl
  | cons p rest ih =>
    by_cases hp : p.1 = k
    · have hp' : p.1 ≠ k' := by rw [hp]; exact fun he => h he.symm
      simp only [modifyKey, List.map_cons, if_pos hp, lookupKey, if_neg hp']
      exact ih
    · by_cases hq : p.1 = k'
      · simp [modifyKey, lookupKey, if_neg hp, if_pos hq]
      · simp only [modifyKey, List.map_cons, if_neg hp, lookupKey, if_neg hq]
        exact ih

theorem addElem_ne_nil (l : List String) (x : String) : addElem l x ≠ [] := by
  unfold addElem
  by_cases hx : x ∈ l
  · rw [if_pos hx]
    intro hnil
    rw [hnil] at hx
    exact List.not_mem_nil x hx
  · rw [if_neg hx]
    simp

theorem addElem_eq_self {l : List String} {x : String} (h : x ∈ l) :
    addElem l x = l := if_pos h

theorem removeElem_eq_self {l : List String} {x : String} (h : x ∉ l) :
    removeElem l x = l :=
  List.filter_eq_self.mpr (fun y hy => by
    simp only [ne_eq, decide_eq_true_eq]
    intro he; exact h (he ▸ hy))

/-! ### Reachable states and the non-empty active-room invariant -/

/-- The typing entry currently recorded for a (socket, room) pair, if any. -/
def TypingEntryAt (s : SState) (sid roomId : String) : Option TypingEntry :=
  match lookupKey s.activeRooms roomId with
  | none => none
  | some room => lookupKey room.typingUsers sid

/-- Every room id present in the Active Room map has a non-empty
participant set. -/
def RoomsNonempty (s : SState) : Prop :=
  ∀ p ∈ s.activeRooms, p.2.participants ≠ []

instance (s : SState) : Decidable (RoomsNonempty s) := by
  unfold RoomsNonempty
  infer_instance

/-- One transition of the service: a socket authenticates, or one of the
tracked event handlers runs with arbitrary arguments (timer expiry fires
`handleStopTyping` and is covered by the `stopTyping` case). -/
inductive Step : SState → SState → Prop where
  | connect (sock : Socket) (uid : String) (s : SState) :
      Step s (connectSocket sock uid s)
  | join (auth : String → String → Option String) (sock : Socket)
      (roomId : String) (s : SState) :
      Step s (handleJoinRoom auth sock roomId s).1
  | leave (sock : Socket) (roomId : String) (s : SState) :
      Step s (handleLeaveRoom sock roomId s).1
  | startTyping (sock : Socket) (roomId : String) (s : SState) :
      Step s (handleStartTyping sock roomId s).1
  | stopTyping (sock : Socket) (roomId : String) (s : SState) :
      Step s (handleStopTyping sock roomId s).1
  | disconnect (sock : Socket) (s : SState) :
      Step s (handleDisconnect sock s).1

/-- States reachable from a freshly constructed service. -/
inductive Reachable : SState → Prop where
  | init : Reachable initState
  | step {s s' : SState} : Reachable s → Step s s' → Reachable s'

theorem roomsNonempty_connect (sock : Socket) (uid : String) (s : SState)
    (h : RoomsNonempty s) : RoomsNonempty (connectSocket sock uid s) := h

theorem roomsNonempty_join (auth : String → String → Option String)
    (sock : Socket) (roomId : String) (s : SState) (h : RoomsNonempty s) :
    RoomsNonempty (handleJoinRoom auth sock roomId s).1 := by
  cases huid : sock.userId with
  | none => simpa [handleJoinRoom, huid] using h
  | some uid =>
    cases hauth : auth uid roomId with
    | none => simpa [handleJoinRoom, huid, hauth] using h
    | some role =>
      intro p hp
      simp only [handleJoinRoom, huid, hauth] at hp
      by_cases hA : (lookupKey s.activeRooms roomId).isSome
      · rw [if_pos hA] at hp
        rcases mem_modifyKey_cases hp with ⟨hmem, _⟩ | ⟨q, _, _, hpq⟩
        · exact h p hmem
        · rw [hpq]; exact addElem_ne_nil _ _
      · rw [if_neg hA] at hp
        rcases mem_modifyKey_cases hp with ⟨hmem, hne⟩ | ⟨q, _, _, hpq⟩
        · rcases mem_setKey_cases hmem with hmem' | hnew
          · exact h p hmem'
          · exact absurd (by rw [hnew]) hne
        · rw [hpq]; exact addElem_ne_nil _ _

theorem roomsNonempty_leave (sock : Socket) (roomId : String) (s : SState)
    (h : RoomsNonempty s) : RoomsNonempty (handleLeaveRoom sock roomId s).1 := by
  cases huid : sock.userId with
  | none => simpa [handleLeaveRoom, huid] using h
  | some uid =>
    cases hA : lookupKey s.activeRooms roomId with
    | none =>
      intro p hp
      simp only [handleLeaveRoom, huid, hA] at hp
      exact h p hp
    | some room =>
      intro p hp
      simp only [handleLeaveRoom, huid, hA] at hp
      by_cases hemp : removeElem room.participants sock.sid = []
      · rw [if_pos hemp] at hp
        exact h p (List.mem_of_mem_filter hp)
      · rw [if_neg hemp] at hp
        rcases mem_setKey_cases hp with hmem | hnew
        · exact h p hmem
        · rw [hnew]; exact hemp

theorem roomsNonempty_startTyping (sock : Socket) (roomId : String) (s : SState)
    (h : RoomsNonempty s) : RoomsNonempty (handleStartTyping sock roomId s).1 := by
  cases huid : sock.userId with
  | none => simpa [handleStartTyping, huid] using h
  | some uid =>
    cases hA : lookupKey s.activeRooms roomId with
    | none => simpa [handleStartTyping, huid, hA] using h
    | some room =>
      intro p hp
      cases hT : lookupKey room.typingUsers sock.sid with
      | none =>
        simp only [handleStartTyping, huid, hA, hT] at hp
        rcases mem_modifyKey_cases hp with ⟨hmem, _⟩ | ⟨q, hq, _, hpq⟩
        · exact h p hmem
        · rw [hpq]; exact h q hq
      | some entry =>
        simp only [handleStartTyping, huid, hA, hT] at hp
        rcases mem_modifyKey_cases hp with ⟨hmem, _⟩ | ⟨q, hq, _, hpq⟩
        · exact h p hmem
        · rw [hpq]; exact h q hq

theorem roomsNonempty_stopTyping (sock : Socket) (roomId : String) (s : SState)
    (h : RoomsNonempty s) : RoomsNonempty (handleStopTyping sock roomId s).1 := by
  cases huid : sock.userId with
  | none => simpa [handleStopTyping, huid] using h
  | some uid =>
    cases hA : lookupKey s.activeRooms roomId with
    | none => simpa [handleStopTyping, huid, hA] using h
    | some room =>
      cases hT : lookupKey room.typingUsers sock.sid with
      | none => simpa [handleStopTyping, huid, hA, hT] using h
      | some entry =>
        intro p hp
        simp only [handleStopTyping, huid, hA, hT] at hp
        rcases mem_modifyKey_cases hp with ⟨hmem, _⟩ | ⟨q, hq, _, hpq⟩
        · exact h p hmem
        · rw [hpq]; exact h q hq

theorem roomsNonempty_disconnect (sock : Socket) (s : SState)
    (h : RoomsNonempty s) : RoomsNonempty (handleDisconnect sock s).1 := by
  cases huid : sock.userId with
  | none => simpa [handleDisconnect, huid] using h
  | some uid =>
    simpa [handleDisconnect, huid, lookupKey_eraseKey_self] using h

/-! ### Concrete example states used by counterexamples and witnesses -/

/-- A socket authenticated as user `u1`. -/
def sockA : Socket := ⟨"s1", some "u1"⟩

/-- A socket authenticated as user `u2`. -/
def sockB : Socket := ⟨"s2", some "u2"⟩

/-- A durable-membership check that grants everyone `member` access. -/
def authAll : String → String → Option String := fun _ _ => some "member"

/-- State after `sockA` authenticates and joins room `r1`. -/
def exJoined : SState :=
  (handleJoinRoom authAll sockA "r1" (connectSocket sockA "u1" initState)).1

/-- State after `sockA` additionally starts typing in `r1` (timer 0 armed). -/
def exTyping : SState := (handleStartTyping sockA "r1" exJoined).1

/-- State where `sockA` has joined `r1` and `sockB` is authenticated but
has joined no room. -/
def exTwoUsers : SState := connectSocket sockB "u2" exJoined

/-- State where the non-member `sockB` has a typing entry in `r1`
(obtained through `handleStartTyping`, which does not check membership). -/
def exNonMemberTyping : SState := (handleStartTyping sockB "r1" exTwoUsers).1

/-- State where two sockets of the same user `u1` have joined `r1`. -/
def exTwoConn : SState :=
  (handleJoinRoom authAll ⟨"s9", some "u1"⟩ "r1"
    (connectSocket ⟨"s9", some "u1"⟩ "u1" exJoined)).1

/-! ### The claims -/

/-- C5: in every reachable state of the service, every room id present in
the Active Room map has a non-empty participant set; each operation (join,
leave, disconnect cleanup, and the typing handlers) preserves this, the
empty room being removed within the same transition that empties it. -/
theorem c5_reachable_rooms_nonempty (s : SState) (h : Reachable s) :
    RoomsNonempty s := by
  have hstep : ∀ {t t' : SState}, Step t t' → RoomsNonempty t → RoomsNonempty t' := by
    intro t t' hst
    cases hst with
    | connect sock uid t => exact roomsNonempty_connect sock uid t
    | join auth sock roomId t => exact roomsNonempty_join auth sock roomId t
    | leave sock roomId t => exact roomsNonempty_leave sock roomId t
    | startTyping sock roomId t => exact roomsNonempty_startTyping sock roomId t
    | stopTyping sock roomId t => exact roomsNonempty_stopTyping sock roomId t
    | disconnect sock t => exact roomsNonempty_disconnect sock t
  induction h with
  | init => intro p hp; simp [initState] at hp
  | step _ hst ih => exact hstep hst ih

/-- Witness for C5: the invariant evaluated at the concrete reachable state
in which `sockA` has connected and joined `r1`. -/
theorem c5_reachable_rooms_nonempty_witness : RoomsNonempty exJoined :=
  c5_reachable_rooms_nonempty exJoined
    (Reachable.step
      (Reachable.step Reachable.init
        (Step.connect sockA "u1" initState))
      (Step.join authAll sockA "r1" (connectSocket sockA "u1" initState)))

/-- C7: when the durable authorization check denies the join,
`handleJoinRoom` leaves the state completely unchanged, emits a single
error event with code `ROOM_ACCESS_DENIED` addressed to the requesting
socket only, and does not disconnect the socket (the state — including
`liveSockets` — is returned untouched). -/
theorem c7_join_denied_scoped_error (auth : String → String → Option String)
    (sock : Socket) (uid roomId : String) (s : SState)
    (huid : sock.userId = some uid) (hdeny : auth uid roomId = none) :
    handleJoinRoom auth sock roomId s =
      (s, [Event.errorEvt sock.sid "ROOM_ACCESS_DENIED"]) := by
  simp [handleJoinRoom, huid, hdeny]

/-- Witness for C7 at a concrete denied join. -/
theorem c7_join_denied_scoped_error_witness :
    handleJoinRoom (fun _ _ => none) sockA "r1" exJoined =
      (exJoined, [Event.errorEvt "s1" "ROOM_ACCESS_DENIED"]) :=
  c7_join_denied_scoped_error (fun _ _ => none) sockA "u1" "r1" exJoined rfl rfl

/-- C8: `handleDisconnect` deletes the user's direct-send route
unconditionally, so after any socket owned by a user disconnects,
`sendToUser` for that user returns false — whatever the route pointed to
beforehand. -/
theorem c8_disconnect_unroutes_user (sock : Socket) (uid : String) (s : SState)
    (huid : sock.userId = some uid) :
    sendToUser (handleDisconnect sock s).1 uid = false := by
  simp [handleDisconnect, huid, lookupKey_eraseKey_self, sendToUser]

/-- Witness for C8: user `u1` holds two live sockets and the route points
at the newer socket `s2`; after the older socket `s1` disconnects,
`sendToUser "u1"` is false even though `s2` is still live. -/
theorem c8_disconnect_unroutes_user_witness :
    lookupKey (connectSocket ⟨"s2", some "u1"⟩ "u1"
        (connectSocket sockA "u1" initState)).userSocketMap "u1" = some "s2" ∧
    "s2" ∈ ((handleDisconnect sockA (connectSocket ⟨"s2", some "u1"⟩ "u1"
        (connectSocket sockA "u1" initState))).1).liveSockets ∧
    sendToUser (handleDisconnect sockA (connectSocket ⟨"s2", some "u1"⟩ "u1"
        (connectSocket sockA "u1" initState))).1 "u1" = false :=
  ⟨by decide, by decide,
    c8_disconnect_unroutes_user sockA "u1"
      (connectSocket ⟨"s2", some "u1"⟩ "u1" (connectSocket sockA "u1" initState)) rfl⟩

/-- C1 (code bug): at the moment of disconnect the connection's joined-room
set is exactly `["r1"]`, yet `handleDisconnect` removes it from no room and
emits no `userLeftRoom` notice — the handler deletes the user session and
then reads it back before iterating its rooms, so the cleanup loop never
runs. -/
theorem c1_disconnect_cleanup_dead :
    (lookupKey exJoined.userSessions "s1").map UserSession.rooms = some ["r1"] ∧
    (lookupKey ((handleDisconnect sockA exJoined).1).activeRooms "r1").map
      ActiveRoom.participants = some ["s1"] ∧
    (handleDisconnect sockA exJoined).2 = [] := by decide

/-- C2 (counterexample): `sockA` has already joined `r1` (its joined-room
set is `["r1"]`), yet a second `handleJoinRoom` for the same room
broadcasts another `userJoinedRoom` notice, contradicting "no duplicate
userJoinedRoom notice is broadcast". -/
theorem c2_rejoin_rebroadcasts :
    (lookupKey exJoined.userSessions "s1").map UserSession.rooms = some ["r1"] ∧
    (handleJoinRoom authAll sockA "r1" exJoined).2 =
      [Event.userJoinedRoom "r1" "s1" "u1" "member"] := by decide

/-- C2 (amended): joining an already-joined room passes the authorization
check, changes no in-memory state and emits no error, but broadcasts a
fresh `userJoinedRoom` notice to the room on every call. -/
theorem c2_rejoin_state_idempotent (auth : String → String → Option String)
    (sock : Socket) (uid roomId role : String) (s : SState)
    (huid : sock.userId = some uid) (hauth : auth uid roomId = some role)
    (hsess : ∀ p ∈ s.userSessions, p.1 = sock.sid → roomId ∈ p.2.rooms)
    (hroom : (lookupKey s.activeRooms roomId).isSome)
    (hpart : ∀ p ∈ s.activeRooms, p.1 = roomId → sock.sid ∈ p.2.participants) :
    handleJoinRoom auth sock roomId s =
      (s, [Event.userJoinedRoom roomId sock.sid uid role]) := by
  have h1 : modifyKey s.userSessions sock.sid
      (fun sess => { sess with rooms := addElem sess.rooms roomId }) = s.userSessions :=
    modifyKey_eq_self (fun p hp hk => by rw [addElem_eq_self (hsess p hp hk)])
  have h2 : modifyKey s.activeRooms roomId
      (fun r => { r with participants := addElem r.participants sock.sid }) = s.activeRooms :=
    modifyKey_eq_self (fun p hp hk => by rw [addElem_eq_self (hpart p hp hk)])
  simp [handleJoinRoom, huid, hauth, h1, hroom, h2]

/-- Witness for C2 (amended) at the concrete already-joined state. -/
theorem c2_rejoin_state_idempotent_witness :
    handleJoinRoom authAll sockA "r1" exJoined =
      (exJoined, [Event.userJoinedRoom "r1" "s1" "u1" "member"]) :=
  c2_rejoin_state_idempotent authAll sockA "u1" "r1" "member" exJoined rfl rfl
    (by decide) (by decide) (by decide)

/-- C3 (counterexample): `sockA` starts typing in `r1` (arming timer 0)
and then leaves, which empties the room and deletes its Active Room entry;
yet the timer is still armed afterwards, contradicting "no timer handle
created by a prior startTyping for that pair remains armed". -/
theorem c3_leave_leaves_timer_armed :
    (0, "s1", "r1") ∈ exTyping.armedTimers ∧
    lookupKey ((handleLeaveRoom sockA "r1" exTyping).1).activeRooms "r1" = none ∧
    (0, "s1", "r1") ∈ ((handleLeaveRoom sockA "r1" exTyping).1).armedTimers := by
  decide

/-- C3 (amended): `handleLeaveRoom` removes the typing entry and deletes
the emptied Active Room entry but never cancels the pending typing-expiry
timer — the armed-timer set is untouched; the orphaned timer is harmless,
since firing it (`handleStopTyping` for the same pair) is a silent no-op
after the leave. -/
theorem c3_leave_keeps_timer_but_fire_is_noop (sock : Socket) (roomId : String)
    (s : SState) :
    ((handleLeaveRoom sock roomId s).1).armedTimers = s.armedTimers ∧
    handleStopTyping sock roomId (handleLeaveRoom sock roomId s).1 =
      ((handleLeaveRoom sock roomId s).1, []) := by
  cases huid : sock.userId with
  | none => simp [handleLeaveRoom, handleStopTyping, huid]
  | some uid =>
    cases hA : lookupKey s.activeRooms roomId with
    | none =>
      constructor
      · simp [handleLeaveRoom, huid, hA]
      · simp [handleLeaveRoom, handleStopTyping, huid, hA]
    | some room =>
      by_cases hemp : removeElem room.participants sock.sid = []
      · constructor
        · simp [handleLeaveRoom, huid, hA, hemp]
        · simp [handleLeaveRoom, handleStopTyping, huid, hA, hemp,
            lookupKey_eraseKey_self]
      · constructor
        · simp [handleLeaveRoom, huid, hA, hemp]
        · simp [handleLeaveRoom, handleStopTyping, huid, hA, hemp,
            lookupKey_setKey_self, lookupKey_eraseKey_self]

/-- C4 (counterexample): `sockB` is authenticated but has joined no room
(its joined-room set is empty), while `r1` is active because `sockA`
joined it; `handleStartTyping` for `sockB` in `r1` is not a no-op: it
creates a typing entry, arms timer 0 and broadcasts `userTyping`,
contradicting "startTyping is a silent no-op ... even when the room is
active because other connections have joined it". -/
theorem c4_nonmember_startTyping_not_noop :
    (lookupKey exTwoUsers.userSessions "s2").map UserSession.rooms = some [] ∧
    (handleStartTyping sockB "r1" exTwoUsers).2 =
      [Event.userTyping "r1" "s2" "u2"] ∧
    TypingEntryAt (handleStartTyping sockB "r1" exTwoUsers).1 "s2" "r1" =
      some ⟨"u2", 0⟩ ∧
    (0, "s2", "r1") ∈ ((handleStartTyping sockB "r1" exTwoUsers).1).armedTimers := by
  decide

/-- C4 (amended): `handleStartTyping` consults only the Active Room map,
not the caller's joined-room set: it is a silent no-op exactly when the
room has no Active Room entry, and whenever the room is active — even for
a connection that never joined it — it broadcasts a `userTyping` notice. -/
theorem c4_startTyping_checks_room_only (sock : Socket) (uid roomId : String)
    (s : SState) (huid : sock.userId = some uid) :
    (lookupKey s.activeRooms roomId = none →
      handleStartTyping sock roomId s = (s, [])) ∧
    (∀ room, lookupKey s.activeRooms roomId = some room →
      (handleStartTyping sock roomId s).2 =
        [Event.userTyping roomId sock.sid uid]) := by
  constructor
  · intro hA; simp [handleStartTyping, huid, hA]
  · intro room hA
    cases hT : lookupKey room.typingUsers sock.sid <;>
      simp [handleStartTyping, huid, hA, hT]

/-- Witness for C4 (amended): the non-member `sockB` broadcasts typing in
the active room `r1`. -/
theorem c4_startTyping_checks_room_only_witness :
    (handleStartTyping sockB "r1" exTwoUsers).2 =
      [Event.userTyping "r1" "s2" "u2"] :=
  (c4_startTyping_checks_room_only sockB "u2" "r1" exTwoUsers rfl).2
    ⟨["s1"], []⟩ (by decide)

/-- C6: `handleStopTyping` broadcasts `userStoppedTyping` if and only if a
typing entry for the (socket, room) pair existed when it was called: with
no entry (room inactive, expiry already fired, or stopTyping already ran)
it returns the state unchanged and emits nothing, and with an entry it
emits exactly one notice, removes the armed timer of that entry and
deletes the entry. -/
theorem c6_stopTyping_iff_entry (sock : Socket) (uid roomId : String)
    (s : SState) (huid : sock.userId = some uid) :
    (TypingEntryAt s sock.sid roomId = none →
      handleStopTyping sock roomId s = (s, [])) ∧
    (∀ entry, TypingEntryAt s sock.sid roomId = some entry →
      (handleStopTyping sock roomId s).2 =
        [Event.userStoppedTyping roomId sock.sid uid] ∧
      ((handleStopTyping sock roomId s).1).armedTimers =
        s.armedTimers.filter (fun t => t.1 ≠ entry.timer) ∧
      TypingEntryAt (handleStopTyping sock roomId s).1 sock.sid roomId = none) := by
  cases hA : lookupKey s.activeRooms roomId with
  | none =>
    constructor
    · intro _; simp [handleStopTyping, huid, hA]
    · intro entry hentry
      simp [TypingEntryAt, hA] at hentry
  | some room =>
    cases hT : lookupKey room.typingUsers sock.sid with
    | none =>
      constructor
      · intro _; simp [handleStopTyping, huid, hA, hT]
      · intro entry hentry
        simp [TypingEntryAt, hA, hT] at hentry
    | some entry0 =>
      constructor
      · intro hnone
        simp [TypingEntryAt, hA, hT] at hnone
      · intro entry hentry
        have he : entry0 = entry := by
          simpa [TypingEntryAt, hA, hT] using hentry
        subst he
        refine ⟨by simp [handleStopTyping, huid, hA, hT], ?_, ?_⟩
        · simp [handleStopTyping, huid, hA, hT]
        · simp [handleStopTyping, huid, hA, hT, TypingEntryAt,
            lookupKey_modifyKey_self, lookupKey_eraseKey_self]

/-- Witness for C6 at the concrete state where `sockA` is typing in `r1`
with entry (u1, timer 0). -/
theorem c6_stopTyping_iff_entry_witness :
    (handleStopTyping sockA "r1" exTyping).2 =
      [Event.userStoppedTyping "r1" "s1" "u1"] ∧
    ((handleStopTyping sockA "r1" exTyping).1).armedTimers =
      exTyping.armedTimers.filter (fun t => t.1 ≠ (TypingEntry.mk "u1" 0).timer) ∧
    TypingEntryAt (handleStopTyping sockA "r1" exTyping).1 "s1" "r1" = none :=
  (c6_stopTyping_iff_entry sockA "u1" "r1" exTyping rfl).2 ⟨"u1", 0⟩ (by decide)

/-- C9: for a room with no Active Room entry, `getActiveUsersInRoom`
returns the empty list; otherwise it returns, per participant connection
(not per user — a user with two connections appears twice), the user id of
its recorded session, silently dropping participants with no session: its
count of any (non-falsy) user id equals the number of participant
connections whose session carries that id. -/
theorem c9_active_users_per_connection (s : SState) (roomId u : String)
    (hu : u ≠ "") :
    (lookupKey s.activeRooms roomId = none →
      getActiveUsersInRoom s roomId = []) ∧
    (∀ room, lookupKey s.activeRooms roomId = some room →
      (getActiveUsersInRoom s roomId).count u =
        (room.participants.filter (fun sid =>
          match lookupKey s.userSessions sid with
          | some sess => sess.userId == u
          | none => false)).length) := by
  constructor
  · intro hA; simp [getActiveUsersInRoom, hA]
  · intro room hA
    simp only [getActiveUsersInRoom, hA]
    induction room.participants with
    | nil => rfl
    | cons a l ih =>
      simp only [List.filterMap_cons, List.filter_cons]
      cases hs : lookupKey s.userSessions a with
      | none => simpa using ih
      | some sess =>
        by_cases hid : sess.userId = ""
        · have hne0 : (("" : String) == u) = false :=
            beq_eq_false_iff_ne.mpr (fun h => hu h.symm)
          simpa [hid, hne0] using ih
        · by_cases heq : sess.userId = u
          · simpa [heq, hu, List.count_cons] using ih
          · have hne : (sess.userId == u) = false := beq_eq_false_iff_ne.mpr heq
            simpa [hid, hne, List.count_cons] using ih

/-- Witness for C9: user `u1` holds two connections in `r1` and is listed
twice; the count matches the number of participant connections owned by
`u1`. -/
theorem c9_active_users_per_connection_witness :
    getActiveUsersInRoom exTwoConn "r1" = ["u1", "u1"] ∧
    (getActiveUsersInRoom exTwoConn "r1").count "u1" =
      ((["s1", "s9"] : List String).filter (fun sid =>
        match lookupKey exTwoConn.userSessions sid with
        | some sess => sess.userId == "u1"
        | none => false)).length :=
  ⟨by decide,
    (c9_active_users_per_connection exTwoConn "r1" "u1" (by decide)).2
      ⟨["s1", "s9"], []⟩ (by decide)⟩

theorem lookupKey_unique {l : List (String × α)} (hnd : (l.map Prod.fst).Nodup)
    {p : String × α} (hp : p ∈ l) {v : α} (hv : lookupKey l p.1 = some v) :
    p.2 = v := by
  induction l with
  | nil => cases hp
  | cons q rest ih =>
    rw [List.map_cons, List.nodup_cons] at hnd
    rcases List.mem_cons.mp hp with rfl | hp'
    · simp only [lookupKey, if_pos rfl] at hv
      injection hv
    · have hq : ¬ q.1 = p.1 := fun he =>
        hnd.1 (he ▸ List.mem_map_of_mem Prod.fst hp')
      simp only [lookupKey, if_neg hq] at hv
      exact ih hnd.2 hp' hv

/-- C10 (counterexample): `sockB` has joined no room, yet it holds a
typing entry in `r1` (startTyping does not check membership); its
`handleLeaveRoom` for `r1` then removes that entry — the typing state is
not left unchanged — while still broadcasting `userLeftRoom` with role
"member". -/
theorem c10_nonmember_leave_mutates_typing :
    (lookupKey exNonMemberTyping.userSessions "s2").map UserSession.rooms =
      some [] ∧
    TypingEntryAt exNonMemberTyping "s2" "r1" = some ⟨"u2", 0⟩ ∧
    TypingEntryAt (handleLeaveRoom sockB "r1" exNonMemberTyping).1 "s2" "r1" =
      none ∧
    (handleLeaveRoom sockB "r1" exNonMemberTyping).2 =
      [Event.userLeftRoom "r1" "s2" "u2" "member"] := by decide

/-- C10 (amended): for an authenticated connection, a room it has not
joined, in which it is not a participant and holds no typing entry (the
room, if active, keeping other participants), `handleLeaveRoom` leaves the
whole state unchanged yet still broadcasts a `userLeftRoom` notice with
role "member" to the room. -/
theorem c10_leave_nonjoined_pure_broadcast (sock : Socket) (uid roomId : String)
    (s : SState) (huid : sock.userId = some uid)
    (hnd : (s.activeRooms.map Prod.fst).Nodup)
    (hsess : ∀ p ∈ s.userSessions, p.1 = sock.sid → roomId ∉ p.2.rooms)
    (hroom : ∀ p ∈ s.activeRooms, p.1 = roomId →
      sock.sid ∉ p.2.participants ∧ (∀ q ∈ p.2.typingUsers, q.1 ≠ sock.sid) ∧
      p.2.participants ≠ []) :
    handleLeaveRoom sock roomId s =
      (s, [Event.userLeftRoom roomId sock.sid uid "member"]) := by
  have h1 : modifyKey s.userSessions sock.sid
      (fun sess => { sess with rooms := removeElem sess.rooms roomId }) =
        s.userSessions :=
    modifyKey_eq_self (fun p hp hk => by rw [removeElem_eq_self (hsess p hp hk)])
  cases hA : lookupKey s.activeRooms roomId with
  | none => simp [handleLeaveRoom, huid, h1, hA]
  | some room =>
    have hprops := hroom (roomId, room) (lookupKey_mem hA) rfl
    have hpart : removeElem room.participants sock.sid = room.participants :=
      removeElem_eq_self hprops.1
    have htyp : eraseKey room.typingUsers sock.sid = room.typingUsers :=
      eraseKey_eq_self hprops.2.1
    have hset : setKey s.activeRooms roomId
        ⟨room.participants, room.typingUsers⟩ = s.activeRooms :=
      setKey_eq_self (by rw [hA]; rfl)
        (fun p hp hk => lookupKey_unique hnd hp (by rw [hk]; exact hA))
    simp [handleLeaveRoom, huid, h1, hA, hpart, htyp, hprops.2.2, hset]

/-- Witness for C10 (amended): the authenticated non-member `sockB` leaves
`r1`; the state is unchanged and the notice is still broadcast. -/
theorem c10_leave_nonjoined_pure_broadcast_witness :
    handleLeaveRoom sockB "r1" exTwoUsers =
      (exTwoUsers, [Event.userLeftRoom "r1" "s2" "u2" "member"]) :=
  c10_leave_nonjoined_pure_broadcast sockB "u2" "r1" exTwoUsers rfl
    (by decide) (by decide) (by decide)

end ChatSocket
